import Mathlib

/-!
# Verification of the cache-aside decorator in `src/main.py`

This file shallowly embeds the caching decorator of the repository
(`cache_response` / its inner `wrapper`, src/main.py lines 19-62) together
with the pieces of its environment that the decorator's contract depends on:

* Python argument handling and truthiness for the key-derivation line
  `user_id = kwargs.get('user_id') or args[0]` (line 32);
* the JSON wire codec `json.dumps` / `json.loads` (lines 44 and 54),
  restricted to the value shapes this application ever serializes — flat
  objects with integer and string fields, the shape of every `users_db`
  record the wrapped producer can return;
* the Redis key-value store behind `aiocache.Cache.REDIS` (line 37), as a
  key/value/expiry association with `get`/`set`-with-TTL semantics;
* the concrete producer `get_user_details` and its `users_db` (lines 71-90).

Machine integers do not occur (Python ints are unbounded, so `Int`/`Nat` are
exact); awaiting is sequential within one call, so the `async` wrapper embeds
as a pure function from (arguments, store, time, write outcome) to
(result, store, number of producer invocations).
-/

namespace MainPy

/-! ## Decimal rendering of integers (Python `str(int)` and `json.dumps` on ints) -/

/-- The character of the decimal digit `d` (for `d < 10`). -/
def digitChar (d : Nat) : Char := Char.ofNat (48 + d)

/-- Decimal digits of `n`, most significant first, prepended to `acc`.
The fuel argument only serves structural termination; `n + 1` steps always
suffice since the value shrinks by a factor of ten each step. -/
def natDigitsAux : Nat → Nat → List Char → List Char
  | 0, _, acc => acc
  | fuel + 1, n, acc =>
    if n < 10 then digitChar n :: acc
    else natDigitsAux fuel (n / 10) (digitChar (n % 10) :: acc)

/-- Decimal digit characters of `n`, most significant first. -/
def natDigits (n : Nat) : List Char := natDigitsAux (n + 1) n []

/-- Characters of Python `str(i)` for an int: optional minus sign, then digits. -/
def intChars (i : Int) : List Char :=
  if i < 0 then '-' :: natDigits i.natAbs else natDigits i.toNat

/-! ## Python values and truthiness -/

/-- The Python runtime values the decorator's argument handling can see in this
application: ints, strings, and `None` (what `kwargs.get` returns on a missing
key). -/
inductive PyVal where
  | int (n : Int)
  | str (s : String)
  | pyNone
deriving DecidableEq

/-- Python truthiness `bool(v)`: zero, the empty string and `None` are falsy. -/
def pyTruthy : PyVal → Bool
  | .int n => n != 0
  | .str s => s != ""
  | .pyNone => false

/-- Python `str(v)`, as used by the f-string `f"{namespace}:user:{user_id}"`. -/
def pyStr : PyVal → String
  | .int n => ⟨intChars n⟩
  | .str s => s
  | .pyNone => "None"

/-! ## JSON wire values

The only values this application serializes are the `users_db` records the
producer returns: flat JSON objects whose fields are ints and strings. -/

/-- A JSON field value of the shapes this application stores. -/
inductive JVal where
  | jint (n : Int)
  | jstr (s : String)
deriving DecidableEq

/-- A flat JSON object (a Python dict in insertion order). -/
abbrev JObj := List (String × JVal)

/-! ## `json.dumps` (src/main.py line 54)

Python's `json.dumps` with default options: `ensure_ascii=True` (every
character outside `0x20..0x7e` is `\uXXXX`-escaped, lowercase hex, astral
characters as surrogate pairs), item separator `", "`, key separator `": "`. -/

/-- The lowercase hex digit character of `d < 16`. -/
def toHexDigit (d : Nat) : Char :=
  if d < 10 then Char.ofNat (48 + d) else Char.ofNat (87 + d)

/-- The four lowercase hex digits of `n < 65536`, most significant first. -/
def hex4 (n : Nat) : List Char :=
  [toHexDigit (n / 4096 % 16), toHexDigit (n % 4096 / 256),
   toHexDigit (n % 256 / 16), toHexDigit (n % 16)]

/-- One character as `json.dumps` (ensure_ascii) renders it inside a string. -/
def escapeChar (c : Char) : List Char :=
  if c = '"' then ['\\', '"']
  else if c = '\\' then ['\\', '\\']
  else if c.toNat = 8 then ['\\', 'b']
  else if c.toNat = 9 then ['\\', 't']
  else if c.toNat = 10 then ['\\', 'n']
  else if c.toNat = 12 then ['\\', 'f']
  else if c.toNat = 13 then ['\\', 'r']
  else if c.toNat < 32 then '\\' :: 'u' :: hex4 c.toNat
  else if c.toNat < 127 then [c]
  else if c.toNat < 65536 then '\\' :: 'u' :: hex4 c.toNat
  else
    '\\' :: 'u' :: hex4 (55296 + (c.toNat - 65536) / 1024) ++
      ('\\' :: 'u' :: hex4 (56320 + (c.toNat - 65536) % 1024))

/-- A character run, escaped. -/
def escList : List Char → List Char
  | [] => []
  | c :: cs => escapeChar c ++ escList cs

/-- One rendered JSON field value. -/
def dumpsJVal : JVal → List Char
  | .jint n => intChars n
  | .jstr s => '"' :: (escList s.data ++ ['"'])

/-- One rendered `"key": value` member (key separator `": "`). -/
def dumpsKV (k : String) (v : JVal) : List Char :=
  '"' :: (escList k.data ++ '"' :: ':' :: ' ' :: dumpsJVal v)

/-- Rendered members after the first, each preceded by the item separator `", "`. -/
def dumpsSep : JObj → List Char
  | [] => []
  | (k, v) :: rest => ',' :: ' ' :: (dumpsKV k v ++ dumpsSep rest)

/-- All rendered members of an object. -/
def dumpsFields : JObj → List Char
  | [] => []
  | (k, v) :: rest => dumpsKV k v ++ dumpsSep rest

/-- `json.dumps(response)` (src/main.py line 54) on the flat objects this
application serializes. -/
def json_dumps (o : JObj) : String := ⟨'{' :: (dumpsFields o ++ ['}'])⟩

/-! ## `json.loads` (src/main.py line 44)

`json.loads` restricted to the wire shapes this application ever stores (flat
objects with int and string fields). Inputs outside that shape — which a
reachable cache never holds, since line 54 only ever stores `json.dumps` of a
`users_db` record — parse to `none` (in Python: a raised error, or a value
shape the application never stores). Lone-surrogate `\uXXXX` escapes also
parse to `none`: they never occur in `json.dumps` output, and a Lean `Char`
cannot carry a lone surrogate. -/

/-- The value of a hex digit character, either case (JSON `\uXXXX` escapes). -/
def hexVal (c : Char) : Option Nat :=
  if 48 ≤ c.toNat ∧ c.toNat ≤ 57 then some (c.toNat - 48)
  else if 97 ≤ c.toNat ∧ c.toNat ≤ 102 then some (c.toNat - 87)
  else if 65 ≤ c.toNat ∧ c.toNat ≤ 70 then some (c.toNat - 55)
  else none

/-- Four hex digit characters as one number below 65536. -/
def parseHex4 (a b c d : Char) : Option Nat :=
  match hexVal a, hexVal b, hexVal c, hexVal d with
  | some x, some y, some z, some w => some (x * 4096 + y * 256 + z * 16 + w)
  | _, _, _, _ => none

/-- The single-character JSON escapes. -/
def shortEscape (e : Char) : Option Char :=
  if e = '"' then some '"'
  else if e = '\\' then some '\\'
  else if e = '/' then some '/'
  else if e = 'b' then some (Char.ofNat 8)
  else if e = 'f' then some (Char.ofNat 12)
  else if e = 'n' then some '\n'
  else if e = 'r' then some (Char.ofNat 13)
  else if e = 't' then some '\t'
  else none

/-- Parse a JSON string body after the opening quote, up to the closing quote.
Surrogate-pair `\uXXXX\uYYYY` escapes recombine into one character. The fuel
decreases by one per decoded character and only serves structural termination;
callers pass one more than the input length, which always suffices since every
decoded character consumes at least one input character. -/
def parseStrBody : Nat → List Char → Option (List Char × List Char)
  | 0, _ => none
  | _ + 1, [] => none
  | fuel + 1, c :: rest =>
    if c = '"' then some ([], rest)
    else if c = '\\' then
      match rest with
      | 'u' :: a :: b :: c2 :: d :: rest2 =>
        (match parseHex4 a b c2 d with
         | none => none
         | some n =>
           if 55296 ≤ n ∧ n < 56320 then
             match rest2 with
             | '\\' :: 'u' :: a2 :: b2 :: c3 :: d2 :: rest3 =>
               (match parseHex4 a2 b2 c3 d2 with
                | none => none
                | some m =>
                  if 56320 ≤ m ∧ m < 57344 then
                    match parseStrBody fuel rest3 with
                    | some (cs, r) =>
                      some (Char.ofNat ((n - 55296) * 1024 + (m - 56320) + 65536) :: cs, r)
                    | none => none
                  else none)
             | _ => none
           else if 56320 ≤ n ∧ n < 57344 then none
           else
             match parseStrBody fuel rest2 with
             | some (cs, r) => some (Char.ofNat n :: cs, r)
             | none => none)
      | e :: rest2 =>
        (match shortEscape e with
         | some ch =>
           match parseStrBody fuel rest2 with
           | some (cs, r) => some (ch :: cs, r)
           | none => none
         | none => none)
      | [] => none
    else
      match parseStrBody fuel rest with
      | some (cs, r) => some (c :: cs, r)
      | none => none

/-- Decimal digit test. -/
def isDigitCh (c : Char) : Bool := 48 ≤ c.toNat && c.toNat ≤ 57

/-- Split a leading run of decimal digits from the rest. -/
def takeDigits : List Char → List Char × List Char
  | [] => ([], [])
  | c :: cs =>
    if isDigitCh c then
      let p := takeDigits cs
      (c :: p.1, p.2)
    else ([], c :: cs)

/-- The number a run of digit characters denotes. -/
def digitsToNat (ds : List Char) : Nat :=
  ds.foldl (fun acc c => acc * 10 + (c.toNat - 48)) 0

/-- Parse a JSON integer token: optional minus sign, then at least one digit. -/
def parseIntTok : List Char → Option (Int × List Char)
  | [] => none
  | c :: rest =>
    if c = '-' then
      match takeDigits rest with
      | ([], _) => none
      | (ds, r) => some (-(digitsToNat ds : Int), r)
    else
      match takeDigits (c :: rest) with
      | ([], _) => none
      | (ds, r) => some ((digitsToNat ds : Int), r)

/-- Parse one field value of the modelled shapes: a string or an integer. -/
def parseJVal : List Char → Option (JVal × List Char)
  | [] => none
  | c :: rest =>
    if c = '"' then
      match parseStrBody (rest.length + 1) rest with
      | some (s, r) => some (.jstr ⟨s⟩, r)
      | none => none
    else
      match parseIntTok (c :: rest) with
      | some (n, r) => some (.jint n, r)
      | none => none

/-- JSON whitespace test. -/
def isWsCh (c : Char) : Bool := c = ' ' || c = '\t' || c = '\n' || c = '\r'

/-- Drop leading JSON whitespace. -/
def skipWs : List Char → List Char
  | [] => []
  | c :: cs => if isWsCh c then skipWs cs else c :: cs

/-- After a parsed member `(k, v)`: a comma continues with `next` (the member
sequence parse at the remaining fuel), anything else ends the member list
without consuming. -/
def fieldsAfterVal (next : List Char → Option (JObj × List Char)) (k : List Char) (v : JVal) :
    List Char → Option (JObj × List Char)
  | [] => some ([(⟨k⟩, v)], [])
  | c2 :: r4 =>
    if c2 = ',' then
      match next r4 with
      | some (fs, r5) => some ((⟨k⟩, v) :: fs, r5)
      | none => none
    else some ([(⟨k⟩, v)], c2 :: r4)

/-- After a parsed member key: expect a colon, then a field value. -/
def fieldsAfterKey (next : List Char → Option (JObj × List Char)) (k : List Char)
    (r1 : List Char) : Option (JObj × List Char) :=
  match skipWs r1 with
  | [] => none
  | c1 :: r2 =>
    if c1 = ':' then
      match parseJVal (skipWs r2) with
      | none => none
      | some (v, r3) => fieldsAfterVal next k v (skipWs r3)
    else none

/-- Parse one or more comma-separated `"key": value` members; stops (without
consuming) at the first non-comma after a member. The fuel bounds the member
count and only serves termination. -/
def parseFields : Nat → List Char → Option (JObj × List Char)
  | 0, _ => none
  | fuel + 1, cs =>
    match skipWs cs with
    | [] => none
    | c0 :: rest =>
      if c0 = '"' then
        match parseStrBody (rest.length + 1) rest with
        | none => none
        | some (k, r1) => fieldsAfterKey (parseFields fuel) k r1
      else none

/-- After the members of an object: expect the closing brace and then only
whitespace to the end of the document. -/
def loadsEnd (fs : JObj) : List Char → Option JObj
  | [] => none
  | c3 :: r3 => if c3 = '}' then (if skipWs r3 = [] then some fs else none) else none

/-- Inside an object, after the opening brace and whitespace: an immediate
closing brace is the empty object, anything else must be a member sequence. -/
def loadsBody : List Char → Option JObj
  | [] => none
  | c1 :: r1 =>
    if c1 = '}' then (if skipWs r1 = [] then some [] else none)
    else
      match parseFields (r1.length + 1) (c1 :: r1) with
      | some (fs, r2) => loadsEnd fs r2
      | none => none

/-- A JSON document of the modelled shapes: whitespace, then one object. -/
def loadsTop (cs : List Char) : Option JObj :=
  match skipWs cs with
  | [] => none
  | c :: rest => if c = '{' then loadsBody (skipWs rest) else none

/-- `json.loads(cached_value)` (src/main.py line 44) on the wire shapes this
application stores. -/
def json_loads (s : String) : Option JObj := loadsTop s.data

/-! ## The Redis store behind `aiocache.Cache.REDIS` (src/main.py line 37)

An association of keys to stored strings with absolute expiry instants.
`set` with TTL (Redis `SET … EX ttl`) makes the entry readable strictly
before `now + ttl`; `get` of an absent or expired key is `None`, a normal
outcome, never an error. -/

/-- The backing store's state. -/
structure CacheStore where
  entries : List (String × String × Nat)
deriving DecidableEq

/-- `await cache.get(cache_key)` (line 40) at time `now`. -/
def CacheStore.get (st : CacheStore) (k : String) (now : Nat) : Option String :=
  match st.entries.find? (fun e => e.1 == k) with
  | some e => if now < e.2.2 then some e.2.1 else none
  | none => none

/-- `await cache.set(cache_key, v, ttl=ttl)` (line 54) at time `now`. -/
def CacheStore.set (st : CacheStore) (k v : String) (ttl now : Nat) : CacheStore :=
  ⟨(k, v, now + ttl) :: st.entries.filter (fun e => e.1 != k)⟩

/-! ## The decorator (src/main.py lines 30-61) -/

/-- The Python exceptions a call through the wrapper can surface. -/
inductive PyErr where
  /-- The unstructured `IndexError` that `args[0]` raises on an empty
  argument tuple (line 32). -/
  | indexError
  /-- `fastapi.HTTPException(status_code, detail)`: raised by the wrapper on a
  failed cache write (line 58) and by the producer on a missing user (line 88). -/
  | httpException (statusCode : Nat) (detail : String)
  /-- An error escaping `json.loads` on line 44 (unreachable from states the
  decorator itself writes). -/
  | jsonDecodeError
  /-- Modelled from the spec: the distinct `InvalidInvocation` error §7 of the
  design requires when no key identifier can be derived from a call. No code
  in src/main.py raises it; it exists so theorems can compare the code's
  behaviour against the spec's error taxonomy. -/
  | invalidInvocation
deriving DecidableEq

deriving instance DecidableEq for Except

/-- What one call through the decorator produces: the value returned or the
exception raised, the store left behind, and how often the wrapped producer
ran (0 or 1). -/
structure CallResult where
  result : Except PyErr JObj
  store : CacheStore
  producerCalls : Nat
deriving DecidableEq

/-- Line 32, `user_id = kwargs.get('user_id') or args[0]`: the keyword value
when it is truthy, else the first positional argument, else an `IndexError`. -/
def deriveUserId (args : List PyVal) (kwUserId : Option PyVal) : Except PyErr PyVal :=
  if pyTruthy (kwUserId.getD .pyNone) then .ok (kwUserId.getD .pyNone)
  else
    match args with
    | a :: _ => .ok a
    | [] => .error .indexError

/-- Line 33, `cache_key = f"{namespace}:user:{user_id}"`. -/
def cache_key (ns : String) (uid : PyVal) : String := ns ++ ":user:" ++ pyStr uid

/-- The decorator's inner `wrapper` (src/main.py lines 30-60), one call.

`func` is the wrapped asynchronous producer; `args`/`kwUserId` the call
arguments (`kwUserId` is `kwargs.get('user_id')` materialized); `st` the
store's state and `now` the time at the call; `writeErr` is the backend's
behaviour on this call's `cache.set`, `none` for success or `some msg` for a
raised exception rendering as `msg` (the simulated write outage of the spec).

Steps, in source order: derive the key (line 32-33); read the cache and, when
the read value is truthy, return `json.loads` of it without invoking the
producer (lines 40-44); otherwise invoke the producer, propagating its
exception unchanged (line 49); then write the serialized result back with the
configured TTL, turning any write failure into `HTTPException(500, "Error
caching data: …")` (lines 51-58); finally return the producer's result. -/
def wrapper (ttl : Nat) (ns : String)
    (func : List PyVal → Option PyVal → Except PyErr JObj)
    (args : List PyVal) (kwUserId : Option PyVal)
    (st : CacheStore) (now : Nat) (writeErr : Option String) : CallResult :=
  match deriveUserId args kwUserId with
  | .error e => ⟨.error e, st, 0⟩
  | .ok uid =>
    let key := cache_key ns uid
    let miss : CallResult :=
      match func args kwUserId with
      | .error e => ⟨.error e, st, 1⟩
      | .ok resp =>
        match writeErr with
        | none => ⟨.ok resp, st.set key (json_dumps resp) ttl now, 1⟩
        | some msg => ⟨.error (.httpException 500 ("Error caching data: " ++ msg)), st, 1⟩
    match st.get key now with
    | some v =>
      if v = "" then miss
      else
        match json_loads v with
        | some j => ⟨.ok j, st, 0⟩
        | none => ⟨.error .jsonDecodeError, st, 0⟩
    | none => miss

/-! ## The application's producer (src/main.py lines 71-90) -/

/-- The simulated database `users_db` (lines 71-75), in insertion order. -/
def users_db : List (Int × JObj) :=
  [ (1, [("id", .jint 1), ("name", .jstr "Alice"),
         ("email", .jstr "alice@example.com"), ("age", .jint 25)]),
    (2, [("id", .jint 2), ("name", .jstr "Bob"),
         ("email", .jstr "bob@example.com"), ("age", .jint 30)]),
    (3, [("id", .jint 3), ("name", .jstr "Charlie"),
         ("email", .jstr "charlie@example.com"), ("age", .jint 22)]) ]

/-- The wrapped producer `get_user_details` (lines 81-90): binds `user_id`
from the keyword if supplied, else the first positional argument; looks it up
in `users_db`; raises `HTTPException(404)` when the lookup comes back falsy. -/
def get_user_details (args : List PyVal) (kwUserId : Option PyVal) : Except PyErr JObj :=
  match kwUserId.getD (args.headD .pyNone) with
  | .int n =>
    (match users_db.find? (fun e => e.1 == n) with
     | some e => .ok e.2
     | none => .error (.httpException 404 "User not found"))
  | _ => .error (.httpException 404 "User not found")

/-! ## Round-trip lemmas: decimal digits and integer tokens -/

theorem digitChar_toNat (d : Nat) (h : d < 10) : (digitChar d).toNat = 48 + d := by
  interval_cases d <;> decide

theorem isDigitCh_digitChar (d : Nat) (h : d < 10) : isDigitCh (digitChar d) = true := by
  interval_cases d <;> decide

theorem natDigitsAux_irrel (n : Nat) : ∀ fuel fuel' acc, n < fuel → n < fuel' →
    natDigitsAux fuel n acc = natDigitsAux fuel' n acc := by
  induction n using Nat.strong_induction_on with
  | _ n ih =>
    intro fuel fuel' acc h h'
    cases fuel with
    | zero => omega
    | succ fuel =>
      cases fuel' with
      | zero => omega
      | succ fuel' =>
        simp only [natDigitsAux]
        rcases Nat.lt_or_ge n 10 with h10 | h10
        · simp [h10]
        · rw [if_neg (by omega), if_neg (by omega)]
          exact ih (n / 10) (by omega) fuel fuel' _ (by omega) (by omega)

theorem natDigitsAux_append (n : Nat) : ∀ fuel acc, n < fuel →
    natDigitsAux fuel n acc = natDigitsAux fuel n [] ++ acc := by
  induction n using Nat.strong_induction_on with
  | _ n ih =>
    intro fuel acc h
    cases fuel with
    | zero => omega
    | succ fuel =>
      simp only [natDigitsAux]
      rcases Nat.lt_or_ge n 10 with h10 | h10
      · simp [h10]
      · rw [if_neg (by omega), if_neg (by omega),
          ih (n / 10) (by omega) fuel _ (by omega),
          ih (n / 10) (by omega) fuel (digitChar (n % 10) :: []) (by omega),
          List.append_assoc]
        rfl

theorem natDigits_unfold (n : Nat) :
    natDigits n = (if n < 10 then [] else natDigits (n / 10)) ++ [digitChar (n % 10)] := by
  have step : natDigits n =
      if n < 10 then digitChar n :: ([] : List Char)
      else natDigitsAux n (n / 10) (digitChar (n % 10) :: []) := rfl
  rw [step]
  rcases Nat.lt_or_ge n 10 with h10 | h10
  · simp [h10, Nat.mod_eq_of_lt h10]
  · rw [if_neg (by omega), if_neg (by omega),
      natDigitsAux_append (n / 10) n _ (by omega),
      natDigitsAux_irrel (n / 10) n (n / 10 + 1) [] (by omega) (by omega)]
    rfl

theorem natDigits_ne_nil (n : Nat) : natDigits n ≠ [] := by
  simp [natDigits_unfold n]

theorem natDigits_digit (n : Nat) : ∀ c ∈ natDigits n, isDigitCh c = true := by
  induction n using Nat.strong_induction_on with
  | _ n ih =>
    intro c hc
    rw [natDigits_unfold] at hc
    rcases List.mem_append.mp hc with hin | hin
    · rcases Nat.lt_or_ge n 10 with h10 | h10
      · simp [h10] at hin
      · refine ih (n / 10) (by omega) c ?_
        simpa [Nat.not_lt.mpr h10] using hin
    · have hc' : c = digitChar (n % 10) := List.mem_singleton.mp hin
      subst hc'
      exact isDigitCh_digitChar _ (Nat.mod_lt _ (by omega))

theorem digitsToNat_append (ds : List Char) (c : Char) :
    digitsToNat (ds ++ [c]) = digitsToNat ds * 10 + (c.toNat - 48) := by
  simp [digitsToNat, List.foldl_append]

theorem digitsToNat_natDigits (n : Nat) : digitsToNat (natDigits n) = n := by
  induction n using Nat.strong_induction_on with
  | _ n ih =>
    rw [natDigits_unfold]
    rcases Nat.lt_or_ge n 10 with h10 | h10
    · rw [if_pos h10, List.nil_append,
        show [digitChar (n % 10)] = [] ++ [digitChar (n % 10)] from rfl,
        digitsToNat_append, digitChar_toNat _ (Nat.mod_lt _ (by omega))]
      simp only [digitsToNat, List.foldl_nil]
      omega
    · rw [if_neg (by omega), digitsToNat_append, ih (n / 10) (by omega),
        digitChar_toNat _ (Nat.mod_lt _ (by omega))]
      omega

theorem isDigitCh_ne (c : Char) (h : isDigitCh c = true) : c ≠ '-' ∧ c ≠ '"' := by
  constructor <;> (intro hc; subst hc; exact absurd h (by decide))

theorem takeDigits_stop (cs : List Char)
    (h : cs = [] ∨ ∃ c t, cs = c :: t ∧ isDigitCh c = false) :
    takeDigits cs = ([], cs) := by
  rcases h with rfl | ⟨c, t, rfl, hc⟩
  · rfl
  · simp [takeDigits, hc]

theorem takeDigits_append (ds tail : List Char) (hall : ∀ x ∈ ds, isDigitCh x = true)
    (htail : takeDigits tail = ([], tail)) : takeDigits (ds ++ tail) = (ds, tail) := by
  induction ds with
  | nil =>
    rw [List.nil_append]
    exact htail
  | cons y ys ih =>
    rw [List.cons_append, takeDigits,
      if_pos (hall y (List.mem_cons_self y ys)),
      ih fun x hx => hall x (List.mem_cons_of_mem y hx)]

theorem parseIntTok_intChars (i : Int) (rest : List Char)
    (hrest : takeDigits rest = ([], rest)) :
    parseIntTok (intChars i ++ rest) = some (i, rest) := by
  by_cases hneg : i < 0
  · simp only [intChars, if_pos hneg, List.cons_append]
    obtain ⟨d, t, hdt⟩ := List.exists_cons_of_ne_nil (natDigits_ne_nil i.natAbs)
    have htake := takeDigits_append (natDigits i.natAbs) rest (natDigits_digit _) hrest
    have e1 : parseIntTok ('-' :: (natDigits i.natAbs ++ rest)) =
        (match takeDigits (natDigits i.natAbs ++ rest) with
         | ([], _) => none
         | (ds, r) => some (-(digitsToNat ds : Int), r)) := by
      simp [parseIntTok]
    rw [e1, htake, hdt]
    show some (-(digitsToNat (d :: t) : Int), rest) = some (i, rest)
    rw [← hdt, digitsToNat_natDigits]
    have h2 : -(i.natAbs : Int) = i := by omega
    rw [h2]
  · simp only [intChars, if_neg hneg]
    obtain ⟨d, t, hdt⟩ := List.exists_cons_of_ne_nil (natDigits_ne_nil i.toNat)
    have hd : isDigitCh d = true := natDigits_digit i.toNat d (by rw [hdt]; simp)
    have htake := takeDigits_append (natDigits i.toNat) rest (natDigits_digit _) hrest
    have e1 : parseIntTok (natDigits i.toNat ++ rest) =
        (match takeDigits (natDigits i.toNat ++ rest) with
         | ([], _) => none
         | (ds, r) => some ((digitsToNat ds : Int), r)) := by
      rw [hdt, List.cons_append]
      simp only [parseIntTok, if_neg (isDigitCh_ne d hd).1]
    rw [e1, htake, hdt]
    show some ((digitsToNat (d :: t) : Int), rest) = some (i, rest)
    rw [← hdt, digitsToNat_natDigits]
    have h2 : ((i.toNat : Nat) : Int) = i := by omega
    rw [h2]

/-! ## Round-trip lemmas: string escapes -/

theorem hexVal_of_toHexDigit (d : Nat) (hd : d < 16) :
    hexVal (toHexDigit d) = some d := by
  interval_cases d <;> decide

theorem parseHex4_hex4 (n : Nat) (h : n < 65536) :
    parseHex4 (toHexDigit (n / 4096 % 16)) (toHexDigit (n % 4096 / 256))
      (toHexDigit (n % 256 / 16)) (toHexDigit (n % 16)) = some n := by
  have h1 := hexVal_of_toHexDigit (n / 4096 % 16) (by omega)
  have h2 := hexVal_of_toHexDigit (n % 4096 / 256) (by omega)
  have h3 := hexVal_of_toHexDigit (n % 256 / 16) (by omega)
  have h4 := hexVal_of_toHexDigit (n % 16) (by omega)
  simp only [parseHex4, h1, h2, h3, h4]
  congr 1
  omega

theorem char_valid_nat (c : Char) :
    c.toNat < 55296 ∨ (57343 < c.toNat ∧ c.toNat < 1114112) := by
  rcases c.valid with h | ⟨h1, h2⟩
  · exact Or.inl h
  · exact Or.inr ⟨h1, h2⟩

theorem parseStrBody_cons_plain (fuel : Nat) (c : Char) (h1 : c ≠ '"') (h2 : c ≠ '\\')
    (rest : List Char) :
    parseStrBody (fuel + 1) (c :: rest) =
      match parseStrBody fuel rest with
      | some (cs, r) => some (c :: cs, r)
      | none => none := by
  simp only [parseStrBody]
  rw [if_neg h1, if_neg h2]

theorem parseStrBody_succ_quote (fuel : Nat) (rest : List Char) :
    parseStrBody (fuel + 1) ('"' :: rest) = some ([], rest) := rfl

theorem parseStrBody_succ_bu (fuel : Nat) (a b c2 d : Char) (rest2 : List Char) :
    parseStrBody (fuel + 1) ('\\' :: 'u' :: a :: b :: c2 :: d :: rest2) =
      (match parseHex4 a b c2 d with
       | none => none
       | some n =>
         if 55296 ≤ n ∧ n < 56320 then
           match rest2 with
           | '\\' :: 'u' :: a2 :: b2 :: c3 :: d2 :: rest3 =>
             (match parseHex4 a2 b2 c3 d2 with
              | none => none
              | some m =>
                if 56320 ≤ m ∧ m < 57344 then
                  match parseStrBody fuel rest3 with
                  | some (cs, r) =>
                    some (Char.ofNat ((n - 55296) * 1024 + (m - 56320) + 65536) :: cs, r)
                  | none => none
                else none)
           | _ => none
         else if 56320 ≤ n ∧ n < 57344 then none
         else
           match parseStrBody fuel rest2 with
           | some (cs, r) => some (Char.ofNat n :: cs, r)
           | none => none) := rfl

theorem parseStrBody_uescape (fuel n : Nat) (h16 : n < 65536) (hns : ¬(55296 ≤ n ∧ n < 57344))
    (rest : List Char) :
    parseStrBody (fuel + 1) ('\\' :: 'u' :: (hex4 n ++ rest)) =
      match parseStrBody fuel rest with
      | some (cs, r) => some (Char.ofNat n :: cs, r)
      | none => none := by
  simp only [hex4, List.cons_append, List.nil_append]
  rw [parseStrBody_succ_bu]
  simp only [parseHex4_hex4 n h16]
  rw [if_neg (by omega), if_neg (by omega)]

theorem parseStrBody_surrogates (fuel v : Nat) (hv : v < 1048576) (rest : List Char) :
    parseStrBody (fuel + 1) ('\\' :: 'u' :: (hex4 (55296 + v / 1024) ++
        ('\\' :: 'u' :: (hex4 (56320 + v % 1024) ++ rest)))) =
      match parseStrBody fuel rest with
      | some (cs, r) => some (Char.ofNat (v + 65536) :: cs, r)
      | none => none := by
  have hmod := Nat.mod_lt v (show 0 < 1024 by omega)
  have hdiv : v / 1024 < 1024 := by omega
  simp only [hex4, List.cons_append, List.nil_append]
  rw [parseStrBody_succ_bu]
  simp only [parseHex4_hex4 (55296 + v / 1024) (by omega)]
  rw [if_pos (by omega)]
  simp only [parseHex4_hex4 (56320 + v % 1024) (by omega)]
  rw [if_pos (by omega)]
  have harith : (55296 + v / 1024 - 55296) * 1024 + (56320 + v % 1024 - 56320) + 65536 =
      v + 65536 := by
    have := Nat.div_add_mod v 1024
    omega
  rw [harith]

theorem parseStrBody_escapeChar (fuel : Nat) (c : Char) (rest : List Char) :
    parseStrBody (fuel + 1) (escapeChar c ++ rest) =
      match parseStrBody fuel rest with
      | some (cs, r) => some (c :: cs, r)
      | none => none := by
  by_cases hq : c = '"'
  · subst hq; rfl
  by_cases hb : c = '\\'
  · subst hb; rfl
  by_cases h8 : c.toNat = 8
  · rw [show c = Char.ofNat 8 by rw [← h8, Char.ofNat_toNat]]; rfl
  by_cases h9 : c.toNat = 9
  · rw [show c = Char.ofNat 9 by rw [← h9, Char.ofNat_toNat]]; rfl
  by_cases h10 : c.toNat = 10
  · rw [show c = Char.ofNat 10 by rw [← h10, Char.ofNat_toNat]]; rfl
  by_cases h12 : c.toNat = 12
  · rw [show c = Char.ofNat 12 by rw [← h12, Char.ofNat_toNat]]; rfl
  by_cases h13 : c.toNat = 13
  · rw [show c = Char.ofNat 13 by rw [← h13, Char.ofNat_toNat]]; rfl
  by_cases hctl : c.toNat < 32
  · rw [escapeChar, if_neg hq, if_neg hb, if_neg h8, if_neg h9, if_neg h10, if_neg h12,
      if_neg h13, if_pos hctl, List.cons_append, List.cons_append,
      parseStrBody_uescape fuel c.toNat (by omega) (by omega), Char.ofNat_toNat]
  by_cases hascii : c.toNat < 127
  · rw [escapeChar, if_neg hq, if_neg hb, if_neg h8, if_neg h9, if_neg h10, if_neg h12,
      if_neg h13, if_neg hctl, if_pos hascii]
    rw [List.singleton_append]
    exact parseStrBody_cons_plain fuel c hq hb rest
  by_cases hbmp : c.toNat < 65536
  · have hval := char_valid_nat c
    rw [escapeChar, if_neg hq, if_neg hb, if_neg h8, if_neg h9, if_neg h10, if_neg h12,
      if_neg h13, if_neg hctl, if_neg hascii, if_pos hbmp, List.cons_append, List.cons_append,
      parseStrBody_uescape fuel c.toNat (by omega) (by omega), Char.ofNat_toNat]
  · have hval := char_valid_nat c
    rw [escapeChar, if_neg hq, if_neg hb, if_neg h8, if_neg h9, if_neg h10, if_neg h12,
      if_neg h13, if_neg hctl, if_neg hascii, if_neg hbmp]
    simp only [List.cons_append, List.append_assoc]
    rw [parseStrBody_surrogates fuel (c.toNat - 65536) (by omega) rest,
      show c.toNat - 65536 + 65536 = c.toNat by omega, Char.ofNat_toNat]

theorem parseStrBody_escList (cs : List Char) : ∀ fuel rest, cs.length < fuel →
    parseStrBody fuel (escList cs ++ '"' :: rest) = some (cs, rest) := by
  induction cs with
  | nil =>
    intro fuel rest h
    cases fuel with
    | zero => omega
    | succ f => rw [escList, List.nil_append, parseStrBody_succ_quote]
  | cons c cs ih =>
    intro fuel rest h
    cases fuel with
    | zero => omega
    | succ f =>
      rw [escList, List.append_assoc, parseStrBody_escapeChar,
        ih f rest (by simpa using Nat.lt_of_succ_lt_succ h)]

set_option maxHeartbeats 1000000 in
theorem escapeChar_length_pos (c : Char) : 1 ≤ (escapeChar c).length := by
  rw [escapeChar]
  split_ifs <;> simp [hex4]

theorem length_le_escList (cs : List Char) : cs.length ≤ (escList cs).length := by
  induction cs with
  | nil => simp [escList]
  | cons c cs ih =>
    rw [escList, List.length_append, List.length_cons]
    have h1 := escapeChar_length_pos c
    omega

/-! ## Round-trip lemmas: field values -/

theorem string_mk_data (s : String) : (⟨s.data⟩ : String) = s := rfl

theorem skipWs_cons_not (c : Char) (h : isWsCh c = false) (cs : List Char) :
    skipWs (c :: cs) = c :: cs := by
  simp [skipWs, h]

theorem intChars_ne_nil (i : Int) : intChars i ≠ [] := by
  rw [intChars]
  split_ifs
  · simp
  · exact natDigits_ne_nil _

theorem intChars_chars (i : Int) : ∀ c ∈ intChars i, c = '-' ∨ isDigitCh c = true := by
  rw [intChars]
  split_ifs <;> intro c hc
  · rcases List.mem_cons.mp hc with rfl | h
    · exact Or.inl rfl
    · exact Or.inr (natDigits_digit _ _ h)
  · exact Or.inr (natDigits_digit _ _ hc)

theorem parseJVal_not_quote (c : Char) (h : c ≠ '"') (rest : List Char) :
    parseJVal (c :: rest) =
      match parseIntTok (c :: rest) with
      | some (n, r) => some (.jint n, r)
      | none => none := by
  simp only [parseJVal]
  rw [if_neg h]

theorem parseJVal_dumpsJVal (v : JVal) (c0 : Char) (r : List Char)
    (hc0 : isDigitCh c0 = false) :
    parseJVal (dumpsJVal v ++ c0 :: r) = some (v, c0 :: r) := by
  cases v with
  | jint n =>
    obtain ⟨d, t, hdt⟩ := List.exists_cons_of_ne_nil (intChars_ne_nil n)
    have hd := intChars_chars n d (by rw [hdt]; simp)
    have hdq : d ≠ '"' := by
      rcases hd with rfl | hd
      · decide
      · exact (isDigitCh_ne d hd).2
    rw [dumpsJVal, hdt, List.cons_append, parseJVal_not_quote d hdq, ← List.cons_append, ← hdt,
      parseIntTok_intChars n _ (takeDigits_stop _ (Or.inr ⟨c0, r, rfl, hc0⟩))]
  | jstr s =>
    have e1 : dumpsJVal (.jstr s) ++ c0 :: r =
        '"' :: (escList s.data ++ '"' :: (c0 :: r)) := by
      rw [dumpsJVal]
      simp
    rw [e1]
    simp only [parseJVal]
    rw [if_pos trivial]
    have hlen : s.data.length < (escList s.data ++ '"' :: (c0 :: r)).length + 1 := by
      have := length_le_escList s.data
      rw [List.length_append]
      omega
    rw [parseStrBody_escList s.data _ (c0 :: r) hlen]

theorem isDigitCh_not_ws (c : Char) (h : isDigitCh c = true) : isWsCh c = false := by
  have hne : c ≠ ' ' ∧ c ≠ '\t' ∧ c ≠ '\n' ∧ c ≠ '\r' := by
    refine ⟨?_, ?_, ?_, ?_⟩ <;> (intro hc; subst hc; exact absurd h (by decide))
  simp [isWsCh, hne.1, hne.2.1, hne.2.2.1, hne.2.2.2]

theorem dumpsJVal_head (v : JVal) :
    ∃ d t, dumpsJVal v = d :: t ∧ isWsCh d = false := by
  cases v with
  | jint n =>
    obtain ⟨d, t, hdt⟩ := List.exists_cons_of_ne_nil (intChars_ne_nil n)
    refine ⟨d, t, hdt, ?_⟩
    rcases intChars_chars n d (by rw [hdt]; simp) with rfl | hd
    · decide
    · exact isDigitCh_not_ws d hd
  | jstr s => exact ⟨'"', escList s.data ++ ['"'], rfl, by decide⟩

/-! ## Round-trip lemmas: objects -/

theorem skipWs_cons_ws (c : Char) (h : isWsCh c = true) (cs : List Char) :
    skipWs (c :: cs) = skipWs cs := by
  simp [skipWs, h]

theorem parseFields_cons_ws (fuel : Nat) (c : Char) (h : isWsCh c = true) (cs : List Char) :
    parseFields fuel (c :: cs) = parseFields fuel cs := by
  cases fuel with
  | zero => rfl
  | succ f =>
    simp only [parseFields]
    rw [skipWs_cons_ws c h]

theorem parseFields_succ_quote (f : Nat) (Z : List Char) :
    parseFields (f + 1) ('"' :: Z) =
      (match parseStrBody (Z.length + 1) Z with
       | none => none
       | some (k, r1) => fieldsAfterKey (parseFields f) k r1) := rfl

theorem fieldsAfterKey_colon (next : List Char → Option (JObj × List Char)) (k : List Char)
    (R : List Char) :
    fieldsAfterKey next k (':' :: ' ' :: R) =
      (match parseJVal (skipWs R) with
       | none => none
       | some (v, r3) => fieldsAfterVal next k v (skipWs r3)) := rfl

theorem fieldsAfterVal_brace (next : List Char → Option (JObj × List Char)) (k : List Char)
    (v : JVal) (r : List Char) :
    fieldsAfterVal next k v ('}' :: r) = some ([(⟨k⟩, v)], '}' :: r) := rfl

theorem fieldsAfterVal_comma (next : List Char → Option (JObj × List Char)) (k : List Char)
    (v : JVal) (r4 : List Char) :
    fieldsAfterVal next k v (',' :: r4) =
      (match next r4 with
       | some (fs, r5) => some ((⟨k⟩, v) :: fs, r5)
       | none => none) := rfl

theorem length_le_dumpsSep (fs : JObj) : fs.length ≤ (dumpsSep fs).length := by
  induction fs with
  | nil => simp [dumpsSep]
  | cons kv fs ih =>
    obtain ⟨k, v⟩ := kv
    rw [dumpsSep]
    simp only [List.length_cons, List.length_append]
    omega

theorem length_le_dumpsFields (fs : JObj) : fs.length ≤ (dumpsFields fs).length := by
  cases fs with
  | nil => simp [dumpsFields]
  | cons kv fs =>
    obtain ⟨k, v⟩ := kv
    rw [dumpsFields, dumpsKV]
    have := length_le_dumpsSep fs
    simp only [List.length_cons, List.length_append]
    omega

theorem parseFields_dumpsFields (fs : JObj) : ∀ fuel rest, fs ≠ [] → fs.length < fuel →
    parseFields fuel (dumpsFields fs ++ '}' :: rest) = some (fs, '}' :: rest) := by
  induction fs with
  | nil => intro fuel rest h _; exact absurd rfl h
  | cons kv fs ih =>
    intro fuel rest _ hlen
    obtain ⟨k, v⟩ := kv
    cases fuel with
    | zero => omega
    | succ f => ?_
    obtain ⟨d, t, hdt, hdw⟩ := dumpsJVal_head v
    -- the text after the rendered value: the separator of the remaining
    -- members (if any), then the closing brace
    obtain ⟨c0, r0, he, hc0d, hc0w⟩ :
        ∃ c0 r0, dumpsSep fs ++ '}' :: rest = c0 :: r0 ∧
          isDigitCh c0 = false ∧ isWsCh c0 = false := by
      cases fs with
      | nil => exact ⟨'}', rest, by rw [dumpsSep]; rfl, by decide, by decide⟩
      | cons kv2 fs2 =>
        obtain ⟨k2, v2⟩ := kv2
        exact ⟨',', ' ' :: (dumpsKV k2 v2 ++ dumpsSep fs2) ++ '}' :: rest,
          by rw [dumpsSep]; simp, by decide, by decide⟩
    have e1 : dumpsFields ((k, v) :: fs) ++ '}' :: rest =
        '"' :: (escList k.data ++ '"' ::
          (':' :: ' ' :: (dumpsJVal v ++ (dumpsSep fs ++ '}' :: rest)))) := by
      rw [dumpsFields, dumpsKV]
      simp
    have hklen : k.data.length <
        (escList k.data ++ '"' ::
          (':' :: ' ' :: (dumpsJVal v ++ (dumpsSep fs ++ '}' :: rest)))).length + 1 := by
      have := length_le_escList k.data
      rw [List.length_append]
      omega
    have hsw : skipWs (dumpsJVal v ++ (dumpsSep fs ++ '}' :: rest)) =
        dumpsJVal v ++ (dumpsSep fs ++ '}' :: rest) := by
      rw [hdt, List.cons_append, skipWs_cons_not d hdw]
    have hjv : parseJVal (dumpsJVal v ++ (dumpsSep fs ++ '}' :: rest)) =
        some (v, c0 :: r0) := by
      rw [he, parseJVal_dumpsJVal v c0 r0 hc0d]
    rw [e1, parseFields_succ_quote]
    simp only [parseStrBody_escList k.data _
      (':' :: ' ' :: (dumpsJVal v ++ (dumpsSep fs ++ '}' :: rest))) hklen,
      fieldsAfterKey_colon, hsw, hjv, skipWs_cons_not c0 hc0w]
    cases fs with
    | nil =>
      have he2 : c0 :: r0 = '}' :: rest := by rw [← he, dumpsSep]; rfl
      rw [he2, fieldsAfterVal_brace]
    | cons kv2 fs2 =>
      have he2 : c0 :: r0 = ',' :: (' ' :: (dumpsFields (kv2 :: fs2) ++ '}' :: rest)) := by
        rw [← he, dumpsSep]
        obtain ⟨k2, v2⟩ := kv2
        rw [dumpsFields]
        simp
      rw [he2, fieldsAfterVal_comma, parseFields_cons_ws f ' ' (by decide),
        ih f rest (by simp) (by simp only [List.length_cons] at hlen ⊢; omega)]

theorem loadsTop_brace (rest : List Char) :
    loadsTop ('{' :: rest) = loadsBody (skipWs rest) := rfl

theorem loadsBody_quote (Z : List Char) :
    loadsBody ('"' :: Z) =
      (match parseFields (Z.length + 1) ('"' :: Z) with
       | some (fs, r2) => loadsEnd fs r2
       | none => none) := rfl

theorem loadsEnd_done (fs : JObj) : loadsEnd fs ['}'] = some fs := rfl

/-- The codec round trip on the wire shapes this application stores: parsing a
rendered flat object recovers it exactly. -/
theorem json_loads_dumps (fs : JObj) : json_loads (json_dumps fs) = some fs := by
  cases fs with
  | nil => rfl
  | cons kv fs =>
    obtain ⟨k, v⟩ := kv
    obtain ⟨Y, hY⟩ : ∃ Y, dumpsFields ((k, v) :: fs) = '"' :: Y :=
      ⟨escList k.data ++ '"' :: ':' :: ' ' :: dumpsJVal v ++ dumpsSep fs,
        by rw [dumpsFields, dumpsKV]; simp⟩
    have e0 : json_loads (json_dumps ((k, v) :: fs)) =
        loadsTop ('{' :: (dumpsFields ((k, v) :: fs) ++ ['}'])) := rfl
    have e1 : dumpsFields ((k, v) :: fs) ++ ['}'] = '"' :: (Y ++ ['}']) := by
      rw [hY]
      simp
    have hflen : ((k, v) :: fs).length < (Y ++ ['}']).length + 1 := by
      have h1 := length_le_dumpsFields ((k, v) :: fs)
      rw [hY] at h1
      simp only [List.length_cons, List.length_append] at h1 ⊢
      omega
    have hfs : parseFields ((Y ++ ['}']).length + 1) ('"' :: (Y ++ ['}'])) =
        some ((k, v) :: fs, ['}']) := by
      rw [show ('"' : Char) :: (Y ++ ['}']) = dumpsFields ((k, v) :: fs) ++ '}' :: [] by
        rw [hY]; simp]
      exact parseFields_dumpsFields ((k, v) :: fs) _ [] (by simp) hflen
    rw [e0, loadsTop_brace, e1, skipWs_cons_not '"' (by decide), loadsBody_quote]
    simp only [hfs]
    rw [loadsEnd_done]

/-! ## Store and key lemmas -/

theorem CacheStore.get_set_same (st : CacheStore) (k v : String) (ttl now t : Nat) :
    (st.set k v ttl now).get k t = if t < now + ttl then some v else none := by
  simp [CacheStore.get, CacheStore.set, List.find?_cons]

theorem find?_filter_ne (l : List (String × String × Nat)) (k k2 : String) (h : k ≠ k2) :
    (l.filter (fun e => e.1 != k)).find? (fun e => e.1 == k2) =
      l.find? (fun e => e.1 == k2) := by
  have hkk : ¬(k2 = k) := fun hh => h hh.symm
  have hbk : (k == k2) = false := by simpa using h
  induction l with
  | nil => rfl
  | cons a l ih =>
    by_cases ha : a.1 = k2
    · have hne : (a.1 != k) = true := by
        simp only [bne_iff_ne, ne_eq, ha]
        exact hkk
      simp [List.filter_cons, hne, List.find?_cons, ha, hkk]
    · by_cases hak : a.1 = k
      · simp [List.filter_cons, hak, List.find?_cons, ha, ih, hbk]
      · simp [List.filter_cons, hak, List.find?_cons, ha, ih]

theorem CacheStore.get_set_other (st : CacheStore) (k k2 v : String) (h : k ≠ k2)
    (ttl now t : Nat) : (st.set k v ttl now).get k2 t = st.get k2 t := by
  simp only [CacheStore.get, CacheStore.set]
  rw [List.find?_cons_of_neg _ (by simpa using h), find?_filter_ne st.entries k k2 h]

theorem cache_key_ne (ns1 ns2 : String) (uid : PyVal) (h : ns1 ≠ ns2) :
    cache_key ns1 uid ≠ cache_key ns2 uid := by
  intro hc
  apply h
  have hd := congrArg String.data hc
  simp only [cache_key, String.data_append, List.append_assoc] at hd
  exact congrArg String.mk (List.append_cancel_right hd)

/-! ## Wrapper path lemmas -/

theorem wrapper_keyerror (ttl : Nat) (ns : String)
    (func : List PyVal → Option PyVal → Except PyErr JObj) (args : List PyVal)
    (kwUserId : Option PyVal) (st : CacheStore) (now : Nat) (writeErr : Option String)
    (e : PyErr) (hderive : deriveUserId args kwUserId = .error e) :
    wrapper ttl ns func args kwUserId st now writeErr = ⟨.error e, st, 0⟩ := by
  simp only [wrapper, hderive]

theorem wrapper_no_args (ttl : Nat) (ns : String)
    (func : List PyVal → Option PyVal → Except PyErr JObj)
    (kwUserId : Option PyVal) (st : CacheStore) (now : Nat) (writeErr : Option String)
    (hkw : pyTruthy (kwUserId.getD .pyNone) = false) :
    wrapper ttl ns func [] kwUserId st now writeErr = ⟨.error .indexError, st, 0⟩ :=
  wrapper_keyerror ttl ns func [] kwUserId st now writeErr .indexError
    (by rw [deriveUserId, if_neg (by simp [hkw])])

theorem wrapper_miss (ttl : Nat) (ns : String)
    (func : List PyVal → Option PyVal → Except PyErr JObj) (args : List PyVal)
    (kwUserId : Option PyVal) (st : CacheStore) (now : Nat) (writeErr : Option String)
    (uid : PyVal) (hderive : deriveUserId args kwUserId = .ok uid)
    (hmiss : st.get (cache_key ns uid) now = none ∨
      st.get (cache_key ns uid) now = some "") :
    wrapper ttl ns func args kwUserId st now writeErr =
      match func args kwUserId with
      | .error e => ⟨.error e, st, 1⟩
      | .ok resp =>
        match writeErr with
        | none => ⟨.ok resp, st.set (cache_key ns uid) (json_dumps resp) ttl now, 1⟩
        | some msg =>
          ⟨.error (.httpException 500 ("Error caching data: " ++ msg)), st, 1⟩ := by
  rcases hmiss with hm | hm
  · simp only [wrapper, hderive, hm]
  · simp only [wrapper, hderive, hm]
    rw [if_pos trivial]

theorem wrapper_hit (ttl : Nat) (ns : String)
    (func : List PyVal → Option PyVal → Except PyErr JObj) (args : List PyVal)
    (kwUserId : Option PyVal) (st : CacheStore) (now : Nat) (writeErr : Option String)
    (uid : PyVal) (v : String) (hderive : deriveUserId args kwUserId = .ok uid)
    (hget : st.get (cache_key ns uid) now = some v) (hv : v ≠ "") :
    wrapper ttl ns func args kwUserId st now writeErr =
      match json_loads v with
      | some j => ⟨.ok j, st, 0⟩
      | none => ⟨.error .jsonDecodeError, st, 0⟩ := by
  simp only [wrapper, hderive, hget]
  rw [if_neg hv]

theorem json_dumps_ne_empty (o : JObj) : json_dumps o ≠ "" := by
  intro hc
  have hd := congrArg String.data hc
  simp [json_dumps] at hd

/-! ## The claims -/

/-- C1: for an identifier in the producer's domain, a first call that misses
the cache (no entry under the derived key at its time), obtains the producer's
result and writes it back successfully, followed by a second call with the
same arguments under the same decoration while the entry is within its TTL
window (the store returns the written entry), returns data identical to the
first call's producer output on both calls, and invokes the producer at most
once across the two calls. -/
theorem C1_second_call_within_ttl (ttl : Nat) (ns : String)
    (func : List PyVal → Option PyVal → Except PyErr JObj) (args : List PyVal)
    (kwUserId : Option PyVal) (st : CacheStore) (t1 t2 : Nat) (uid : PyVal) (resp : JObj)
    (hderive : deriveUserId args kwUserId = .ok uid)
    (hmiss : st.get (cache_key ns uid) t1 = none)
    (hfunc : func args kwUserId = .ok resp)
    (hwin : t2 < t1 + ttl) :
    (wrapper ttl ns func args kwUserId st t1 none).result = .ok resp ∧
    (wrapper ttl ns func args kwUserId
      (wrapper ttl ns func args kwUserId st t1 none).store t2 none).result = .ok resp ∧
    (wrapper ttl ns func args kwUserId st t1 none).producerCalls +
      (wrapper ttl ns func args kwUserId
        (wrapper ttl ns func args kwUserId st t1 none).store t2 none).producerCalls ≤ 1 := by
  have h1 : wrapper ttl ns func args kwUserId st t1 none =
      ⟨.ok resp, st.set (cache_key ns uid) (json_dumps resp) ttl t1, 1⟩ := by
    rw [wrapper_miss ttl ns func args kwUserId st t1 none uid hderive (Or.inl hmiss)]
    simp only [hfunc]
  have hget2 : (st.set (cache_key ns uid) (json_dumps resp) ttl t1).get (cache_key ns uid) t2 =
      some (json_dumps resp) := by
    rw [CacheStore.get_set_same, if_pos hwin]
  have h2 : wrapper ttl ns func args kwUserId
      (st.set (cache_key ns uid) (json_dumps resp) ttl t1) t2 none =
      ⟨.ok resp, st.set (cache_key ns uid) (json_dumps resp) ttl t1, 0⟩ := by
    rw [wrapper_hit ttl ns func args kwUserId _ t2 none uid (json_dumps resp) hderive hget2
      (json_dumps_ne_empty resp), json_loads_dumps]
  simp only [h1, h2]
  exact ⟨trivial, trivial, by omega⟩

/-- Witness for C1: the spec's example scenario — identifier 1 in namespace
"users" with TTL 120, first call at time 0 on an empty store, second call at
time 5. -/
theorem C1_second_call_within_ttl_witness :
    deriveUserId [] (some (PyVal.int 1)) = .ok (.int 1) ∧
    (CacheStore.mk []).get (cache_key "users" (.int 1)) 0 = none ∧
    get_user_details [] (some (.int 1)) =
      .ok [("id", .jint 1), ("name", .jstr "Alice"),
           ("email", .jstr "alice@example.com"), ("age", .jint 25)] ∧
    5 < 0 + 120 ∧
    ((wrapper 120 "users" get_user_details [] (some (.int 1)) ⟨[]⟩ 0 none).result =
      .ok [("id", .jint 1), ("name", .jstr "Alice"),
           ("email", .jstr "alice@example.com"), ("age", .jint 25)] ∧
     (wrapper 120 "users" get_user_details [] (some (.int 1))
       (wrapper 120 "users" get_user_details [] (some (.int 1)) ⟨[]⟩ 0 none).store 5 none).result =
      .ok [("id", .jint 1), ("name", .jstr "Alice"),
           ("email", .jstr "alice@example.com"), ("age", .jint 25)] ∧
     (wrapper 120 "users" get_user_details [] (some (.int 1)) ⟨[]⟩ 0 none).producerCalls +
       (wrapper 120 "users" get_user_details [] (some (.int 1))
         (wrapper 120 "users" get_user_details [] (some (.int 1)) ⟨[]⟩ 0 none).store 5
         none).producerCalls ≤ 1) :=
  ⟨by decide, by decide, by decide, by decide,
    C1_second_call_within_ttl 120 "users" get_user_details [] (some (.int 1)) ⟨[]⟩ 0 5 (.int 1)
      [("id", .jint 1), ("name", .jstr "Alice"),
       ("email", .jstr "alice@example.com"), ("age", .jint 25)]
      (by decide) (by decide) (by decide) (by decide)⟩

/-- C2: whenever the adapter's get returns a truthy cached value for the
derived key, the decorator returns the deserialized cached value immediately
(`json.loads` of the stored string), leaves the store untouched, and does not
invoke the wrapped producer. -/
theorem C2_hit_skips_producer (ttl : Nat) (ns : String)
    (func : List PyVal → Option PyVal → Except PyErr JObj) (args : List PyVal)
    (kwUserId : Option PyVal) (st : CacheStore) (now : Nat) (writeErr : Option String)
    (uid : PyVal) (v : String)
    (hderive : deriveUserId args kwUserId = .ok uid)
    (hget : st.get (cache_key ns uid) now = some v) (hv : v ≠ "") :
    wrapper ttl ns func args kwUserId st now writeErr =
      ⟨(match json_loads v with
        | some j => Except.ok j
        | none => Except.error PyErr.jsonDecodeError), st, 0⟩ := by
  rw [wrapper_hit ttl ns func args kwUserId st now writeErr uid v hderive hget hv]
  cases json_loads v <;> rfl

/-- Witness for C2: a store holding the wire form of a one-field record under
the derived key; the call returns it deserialized with zero producer calls. -/
theorem C2_hit_skips_producer_witness :
    deriveUserId [] (some (PyVal.int 1)) = .ok (.int 1) ∧
    (CacheStore.mk [("users:user:1", json_dumps [("id", .jint 1)], 100)]).get
      (cache_key "users" (.int 1)) 0 = some (json_dumps [("id", .jint 1)]) ∧
    json_dumps [("id", .jint 1)] ≠ "" ∧
    wrapper 120 "users" get_user_details [] (some (.int 1))
        ⟨[("users:user:1", json_dumps [("id", .jint 1)], 100)]⟩ 0 none =
      ⟨(match json_loads (json_dumps [("id", .jint 1)]) with
        | some j => Except.ok j
        | none => Except.error PyErr.jsonDecodeError),
       ⟨[("users:user:1", json_dumps [("id", .jint 1)], 100)]⟩, 0⟩ :=
  ⟨by decide, by decide, by decide,
    C2_hit_skips_producer 120 "users" get_user_details [] (some (.int 1))
      ⟨[("users:user:1", json_dumps [("id", .jint 1)], 100)]⟩ 0 none (.int 1)
      (json_dumps [("id", .jint 1)]) (by decide) (by decide) (by decide)⟩

/-- C3: when the producer succeeds but the cache write fails, the decorator
raises the distinct cache-write error — `HTTPException(500, "Error caching
data: …")` — to the caller instead of returning the computed result, leaving
the store unchanged. -/
theorem C3_write_failure_fails_call (ttl : Nat) (ns : String)
    (func : List PyVal → Option PyVal → Except PyErr JObj) (args : List PyVal)
    (kwUserId : Option PyVal) (st : CacheStore) (now : Nat) (uid : PyVal) (resp : JObj)
    (msg : String)
    (hderive : deriveUserId args kwUserId = .ok uid)
    (hmiss : st.get (cache_key ns uid) now = none ∨
      st.get (cache_key ns uid) now = some "")
    (hfunc : func args kwUserId = .ok resp) :
    wrapper ttl ns func args kwUserId st now (some msg) =
      ⟨.error (.httpException 500 ("Error caching data: " ++ msg)), st, 1⟩ ∧
    (wrapper ttl ns func args kwUserId st now (some msg)).result ≠ .ok resp := by
  have h1 : wrapper ttl ns func args kwUserId st now (some msg) =
      ⟨.error (.httpException 500 ("Error caching data: " ++ msg)), st, 1⟩ := by
    rw [wrapper_miss ttl ns func args kwUserId st now (some msg) uid hderive hmiss]
    simp only [hfunc]
  refine ⟨h1, ?_⟩
  rw [h1]
  simp

/-- Witness for C3: a miss on an empty store with a simulated write outage;
the call fails with the HTTP 500 cache-write error even though the producer
returned Alice's record. -/
theorem C3_write_failure_fails_call_witness :
    deriveUserId [] (some (PyVal.int 1)) = .ok (.int 1) ∧
    ((CacheStore.mk []).get (cache_key "users" (.int 1)) 0 = none ∨
      (CacheStore.mk []).get (cache_key "users" (.int 1)) 0 = some "") ∧
    get_user_details [] (some (.int 1)) =
      .ok [("id", .jint 1), ("name", .jstr "Alice"),
           ("email", .jstr "alice@example.com"), ("age", .jint 25)] ∧
    (wrapper 120 "users" get_user_details [] (some (.int 1)) ⟨[]⟩ 0 (some "outage") =
      ⟨.error (.httpException 500 ("Error caching data: " ++ "outage")), ⟨[]⟩, 1⟩ ∧
     (wrapper 120 "users" get_user_details [] (some (.int 1)) ⟨[]⟩ 0
       (some "outage")).result ≠
      .ok [("id", .jint 1), ("name", .jstr "Alice"),
           ("email", .jstr "alice@example.com"), ("age", .jint 25)]) :=
  ⟨by decide, Or.inl (by decide), by decide,
    C3_write_failure_fails_call 120 "users" get_user_details [] (some (.int 1)) ⟨[]⟩ 0 (.int 1)
      [("id", .jint 1), ("name", .jstr "Alice"),
       ("email", .jstr "alice@example.com"), ("age", .jint 25)]
      "outage" (by decide) (Or.inl (by decide)) (by decide)⟩

/-- C4: when the wrapped producer fails on a cache miss, the decorator
propagates that failure unchanged, performs no cache write (the store is
exactly what it was), and a repeated call on the same store invokes the
producer again. -/
theorem C4_producer_failure_propagates (ttl : Nat) (ns : String)
    (func : List PyVal → Option PyVal → Except PyErr JObj) (args : List PyVal)
    (kwUserId : Option PyVal) (st : CacheStore) (t1 t2 : Nat)
    (writeErr1 writeErr2 : Option String) (uid : PyVal) (e : PyErr)
    (hderive : deriveUserId args kwUserId = .ok uid)
    (hmiss1 : st.get (cache_key ns uid) t1 = none ∨
      st.get (cache_key ns uid) t1 = some "")
    (hfunc : func args kwUserId = .error e)
    (hmiss2 : st.get (cache_key ns uid) t2 = none ∨
      st.get (cache_key ns uid) t2 = some "") :
    wrapper ttl ns func args kwUserId st t1 writeErr1 = ⟨.error e, st, 1⟩ ∧
    (wrapper ttl ns func args kwUserId st t2 writeErr2).producerCalls = 1 := by
  have h1 : wrapper ttl ns func args kwUserId st t1 writeErr1 = ⟨.error e, st, 1⟩ := by
    rw [wrapper_miss ttl ns func args kwUserId st t1 writeErr1 uid hderive hmiss1]
    simp only [hfunc]
  have h2 : wrapper ttl ns func args kwUserId st t2 writeErr2 = ⟨.error e, st, 1⟩ := by
    rw [wrapper_miss ttl ns func args kwUserId st t2 writeErr2 uid hderive hmiss2]
    simp only [hfunc]
  exact ⟨h1, by rw [h2]⟩

/-- Witness for C4: the spec's not-found scenario — identifier 99 misses the
database; both calls surface the 404 unchanged, write nothing, and each
invokes the producer. -/
theorem C4_producer_failure_propagates_witness :
    deriveUserId [] (some (PyVal.int 99)) = .ok (.int 99) ∧
    ((CacheStore.mk []).get (cache_key "users" (.int 99)) 0 = none ∨
      (CacheStore.mk []).get (cache_key "users" (.int 99)) 0 = some "") ∧
    get_user_details [] (some (.int 99)) = .error (.httpException 404 "User not found") ∧
    ((CacheStore.mk []).get (cache_key "users" (.int 99)) 7 = none ∨
      (CacheStore.mk []).get (cache_key "users" (.int 99)) 7 = some "") ∧
    (wrapper 120 "users" get_user_details [] (some (.int 99)) ⟨[]⟩ 0 none =
      ⟨.error (.httpException 404 "User not found"), ⟨[]⟩, 1⟩ ∧
     (wrapper 120 "users" get_user_details [] (some (.int 99)) ⟨[]⟩ 7 none).producerCalls = 1) :=
  ⟨by decide, Or.inl (by decide), by decide, Or.inl (by decide),
    C4_producer_failure_propagates 120 "users" get_user_details [] (some (.int 99)) ⟨[]⟩ 0 7
      none none (.int 99) (.httpException 404 "User not found")
      (by decide) (Or.inl (by decide)) (by decide) (Or.inl (by decide))⟩

/-- C5: the cache key is the deterministic composition
`namespace ++ ":user:" ++ str(identifier)`, the identifier being the
user_id keyword argument or the first positional argument; an identical
logical invocation (same arguments) derives the identical key. -/
theorem C5_cache_key_composition (ns : String) (args args2 : List PyVal)
    (kwUserId kw2 : Option PyVal) (uid : PyVal)
    (hderive : deriveUserId args kwUserId = .ok uid)
    (hargs : args2 = args) (hkw : kw2 = kwUserId) :
    cache_key ns uid = ns ++ ":user:" ++ pyStr uid ∧
    (uid = kwUserId.getD .pyNone ∨ ∃ rest, args = uid :: rest) ∧
    deriveUserId args2 kw2 = .ok uid := by
  refine ⟨rfl, ?_, by rw [hargs, hkw, hderive]⟩
  cases args with
  | nil =>
    rw [deriveUserId] at hderive
    by_cases ht : pyTruthy (kwUserId.getD .pyNone)
    · rw [if_pos ht] at hderive
      injection hderive with h
      exact Or.inl h.symm
    · rw [if_neg ht] at hderive
      exact absurd hderive (by simp)
  | cons a rest =>
    rw [deriveUserId] at hderive
    by_cases ht : pyTruthy (kwUserId.getD .pyNone)
    · rw [if_pos ht] at hderive
      injection hderive with h
      exact Or.inl h.symm
    · rw [if_neg ht] at hderive
      injection hderive with h
      exact Or.inr ⟨rest, by rw [h]⟩

/-- Witness for C5: identifier 7 supplied by keyword under namespace
"users"; the derived key is the composed string and re-deriving on the same
arguments gives the same identifier. -/
theorem C5_cache_key_composition_witness :
    deriveUserId [] (some (PyVal.int 7)) = .ok (.int 7) ∧
    (([] : List PyVal) = []) ∧ ((some (PyVal.int 7)) = some (PyVal.int 7)) ∧
    (cache_key "users" (.int 7) = "users" ++ ":user:" ++ pyStr (.int 7) ∧
     ((PyVal.int 7) = (some (PyVal.int 7)).getD .pyNone ∨
       ∃ rest, ([] : List PyVal) = (PyVal.int 7) :: rest) ∧
     deriveUserId [] (some (PyVal.int 7)) = .ok (.int 7)) :=
  ⟨by decide, rfl, rfl,
    C5_cache_key_composition "users" [] [] (some (.int 7)) (some (.int 7)) (.int 7)
      (by decide) rfl rfl⟩

/-- C6: for every representable producer result (the flat JSON-encodable
record shapes this producer can return — objects with int and string fields),
decoding the serialized wire form yields the original value:
`json_loads (json_dumps o) = some o`, where `json_dumps` is the serialization
used at write-back (line 54) and `json_loads` the deserialization used on a
cache hit (line 44). -/
theorem C6_decode_encode_roundtrip (o : JObj) : json_loads (json_dumps o) = some o :=
  json_loads_dumps o

/-- C7: distinct namespaces derive distinct cache keys for the same
identifier, so an entry written under one namespace never changes what a read
under the other namespace returns. -/
theorem C7_namespace_isolation (ns1 ns2 : String) (uid : PyVal) (st : CacheStore)
    (v : String) (ttl now t : Nat) (h : ns1 ≠ ns2) :
    cache_key ns1 uid ≠ cache_key ns2 uid ∧
    (st.set (cache_key ns1 uid) v ttl now).get (cache_key ns2 uid) t =
      st.get (cache_key ns2 uid) t :=
  ⟨cache_key_ne ns1 ns2 uid h,
    CacheStore.get_set_other st _ _ v (cache_key_ne ns1 ns2 uid h) ttl now t⟩

/-- Witness for C7: namespaces "users" and "main" with identifier 1 on an
empty store. -/
theorem C7_namespace_isolation_witness :
    ("users" : String) ≠ "main" ∧
    (cache_key "users" (PyVal.int 1) ≠ cache_key "main" (PyVal.int 1) ∧
     ((CacheStore.mk []).set (cache_key "users" (.int 1)) "x" 120 0).get
        (cache_key "main" (.int 1)) 5 =
       (CacheStore.mk []).get (cache_key "main" (.int 1)) 5) :=
  ⟨by decide,
    C7_namespace_isolation "users" "main" (.int 1) ⟨[]⟩ "x" 120 0 5 (by decide)⟩

/-- C8 as stated is false of the code: on a call with no positional argument
and no user_id keyword, the wrapper raises the unstructured IndexError coming
from `args[0]` (line 32), not a distinct InvalidInvocation error. Concretely,
calling the decorated producer with empty arguments on an empty store yields
IndexError, which is not the spec's InvalidInvocation. -/
theorem C8_counterexample :
    (wrapper 120 "users" get_user_details [] none ⟨[]⟩ 0 none).result =
      .error .indexError ∧
    (wrapper 120 "users" get_user_details [] none ⟨[]⟩ 0 none).result ≠
      .error .invalidInvocation :=
  ⟨by decide, by decide⟩

/-- C8 (amended): on every call from which the decorator cannot locate a key
identifier (no truthy user_id keyword and no positional argument), the call
fails with the unstructured IndexError from the `args[0]` indexing — before
any producer invocation and leaving the store unchanged — rather than with a
distinct InvalidInvocation error. -/
theorem C8_amended_index_error (ttl : Nat) (ns : String)
    (func : List PyVal → Option PyVal → Except PyErr JObj) (kwUserId : Option PyVal)
    (st : CacheStore) (now : Nat) (writeErr : Option String)
    (hkw : pyTruthy (kwUserId.getD .pyNone) = false) :
    wrapper ttl ns func [] kwUserId st now writeErr = ⟨.error .indexError, st, 0⟩ :=
  wrapper_no_args ttl ns func kwUserId st now writeErr hkw

/-- Witness for C8 (amended): no keyword and no positional argument. -/
theorem C8_amended_index_error_witness :
    pyTruthy ((none : Option PyVal).getD .pyNone) = false ∧
    wrapper 120 "users" get_user_details [] none ⟨[]⟩ 3 none =
      ⟨.error .indexError, ⟨[]⟩, 0⟩ :=
  ⟨by decide,
    C8_amended_index_error 120 "users" get_user_details none ⟨[]⟩ 3 none (by decide)⟩

/-- C9: a falsy user_id keyword argument (such as the integer 0) is ignored
by the key derivation — the identifier is taken from the first positional
argument instead — and when no positional argument is present the call fails
with the unstructured out-of-range IndexError before any cache write or
producer invocation. -/
theorem C9_falsy_keyword_ignored (ttl : Nat) (ns : String)
    (func : List PyVal → Option PyVal → Except PyErr JObj) (kwv a : PyVal)
    (rest : List PyVal) (st : CacheStore) (now : Nat) (writeErr : Option String)
    (hfalsy : pyTruthy kwv = false) :
    deriveUserId (a :: rest) (some kwv) = .ok a ∧
    wrapper ttl ns func [] (some kwv) st now writeErr = ⟨.error .indexError, st, 0⟩ := by
  constructor
  · rw [deriveUserId, if_neg (by simp [hfalsy])]
  · exact wrapper_no_args ttl ns func (some kwv) st now writeErr (by simpa using hfalsy)

/-- Witness for C9: keyword user_id 0 with positional argument 5, and the
same keyword with no positional argument. -/
theorem C9_falsy_keyword_ignored_witness :
    pyTruthy (PyVal.int 0) = false ∧
    (deriveUserId [PyVal.int 5] (some (PyVal.int 0)) = .ok (.int 5) ∧
     wrapper 120 "users" get_user_details [] (some (PyVal.int 0)) ⟨[]⟩ 0 none =
       ⟨.error .indexError, ⟨[]⟩, 0⟩) :=
  ⟨by decide,
    C9_falsy_keyword_ignored 120 "users" get_user_details (.int 0) (.int 5) [] ⟨[]⟩ 0 none
      (by decide)⟩

/-- C10: when the store holds a falsy value (the empty string) under the
derived key, the decorator treats the read as a miss: it invokes the producer
and rewrites the entry, so the falsy cached value is never returned as a
hit. -/
theorem C10_falsy_cached_treated_as_miss (ttl : Nat) (ns : String)
    (func : List PyVal → Option PyVal → Except PyErr JObj) (args : List PyVal)
    (kwUserId : Option PyVal) (st : CacheStore) (now : Nat) (uid : PyVal) (resp : JObj)
    (hderive : deriveUserId args kwUserId = .ok uid)
    (hget : st.get (cache_key ns uid) now = some "")
    (hfunc : func args kwUserId = .ok resp) :
    wrapper ttl ns func args kwUserId st now none =
      ⟨.ok resp, st.set (cache_key ns uid) (json_dumps resp) ttl now, 1⟩ := by
  rw [wrapper_miss ttl ns func args kwUserId st now none uid hderive (Or.inr hget)]
  simp only [hfunc]

/-- Witness for C10: a store holding the empty string under the derived key;
the call invokes the producer once and overwrites the entry. -/
theorem C10_falsy_cached_treated_as_miss_witness :
    deriveUserId [] (some (PyVal.int 1)) = .ok (.int 1) ∧
    (CacheStore.mk [("users:user:1", "", 100)]).get (cache_key "users" (.int 1)) 0 =
      some "" ∧
    get_user_details [] (some (.int 1)) =
      .ok [("id", .jint 1), ("name", .jstr "Alice"),
           ("email", .jstr "alice@example.com"), ("age", .jint 25)] ∧
    wrapper 120 "users" get_user_details [] (some (.int 1))
        ⟨[("users:user:1", "", 100)]⟩ 0 none =
      ⟨.ok [("id", .jint 1), ("name", .jstr "Alice"),
            ("email", .jstr "alice@example.com"), ("age", .jint 25)],
       (CacheStore.mk [("users:user:1", "", 100)]).set (cache_key "users" (.int 1))
         (json_dumps [("id", .jint 1), ("name", .jstr "Alice"),
            ("email", .jstr "alice@example.com"), ("age", .jint 25)]) 120 0, 1⟩ :=
  ⟨by decide, by decide, by decide,
    C10_falsy_cached_treated_as_miss 120 "users" get_user_details [] (some (.int 1))
      ⟨[("users:user:1", "", 100)]⟩ 0 (.int 1)
      [("id", .jint 1), ("name", .jstr "Alice"),
       ("email", .jstr "alice@example.com"), ("age", .jint 25)]
      (by decide) (by decide) (by decide)⟩

end MainPy
